/-
Verification of the agent-cli core of the Scarmonit-Architecture repository.

This file shallowly embeds the pieces of the repository that the spec's
testable properties concern:

* `AgentWorker.parse_response` from `src/agent-cli/agent.py` (and the variant
  in `src/agent-cli/agent_fixed.py`), together with the parts of the Python
  standard library they rely on (`str.strip`, `str.split`, `str.replace`,
  `str.lower`, substring containment, `json.loads`, and the `re` patterns of
  the fixed variant's raw-command fallback);
* the ReAct loop `AgentWorker.run` from `src/agent-cli/agent.py`, with the
  model endpoint (`query_llm`) and the tool executor (`execute_tool`) treated
  as oracles, since both only wrap external I/O and always return a string;
* `MultiAgentOrchestrator.execute_parallel` from `src/agent-cli/orchestrator.py`,
  with the completion order of the thread pool abstracted as a permutation of
  the subtask indices.

Python strings are modelled as `String` (lists of characters), Python dicts
returned by the code as structures with `Option` fields for keys that are only
sometimes present, and `json.loads` as a total parser returning `Option`;
JSON numbers are kept as their source lexeme.  Python functions that cannot
raise are total Lean functions; an agent execution that may raise is an
`Except String` value.
-/
import Mathlib

set_option maxRecDepth 10000

/-! ### Python string primitives -/

/-- Characters stripped by Python's `str.strip()` / matched by `\s`
(Unicode whitespace). -/
def pyIsSpace (c : Char) : Bool :=
  c = ' ' || c = '\t' || c = '\n' || c = '\r' || c = '\x0b' || c = '\x0c' ||
  c = '\x1c' || c = '\x1d' || c = '\x1e' || c = '\x1f' || c = '\x85' || c = '\xa0' ||
  c = ' ' || (0x2000 ≤ c.val.toNat && c.val.toNat ≤ 0x200a) ||
  c = ' ' || c = ' ' || c = ' ' || c = ' ' || c = '　'

/-- Python `str.lower()` (ASCII case folding; the repository's patterns and
markers are all ASCII). -/
def pyLower (s : String) : String := ⟨s.data.map Char.toLower⟩

/-- Does the list start with the pattern `pat`? (`str.startswith`). -/
def startsWithL (pat : List Char) : List Char → Bool
  | [] => pat.isEmpty
  | b :: sb =>
    match pat with
    | [] => true
    | a :: pa => a = b && startsWithL pa sb

/-- Substring containment on character lists (Python's `in` on `str`). -/
def listSub (pat : List Char) : List Char → Bool
  | [] => startsWithL pat []
  | l@(_ :: t) => startsWithL pat l || listSub pat t

/-- Python `pat in s` for strings. -/
def containsStr (s pat : String) : Bool := listSub pat.data s.data

/-- The characters after the first occurrence of `pat`
(`s.split(pat, 1)[1]`; empty when `pat` does not occur). -/
def afterFirstL (pat : List Char) : List Char → List Char
  | [] => []
  | l@(_ :: t) => if startsWithL pat l then l.drop pat.length else afterFirstL pat t

/-- `s.split(pat, 1)[1]` as a total function. -/
def afterFirst (s pat : String) : String := ⟨afterFirstL pat.data s.data⟩

/-- `s.split("\n")[0]`. -/
def firstLine (s : String) : String := ⟨s.data.takeWhile (fun c => c ≠ '\n')⟩

/-- Python `str.strip()` on a character list. -/
def stripL (l : List Char) : List Char :=
  ((l.dropWhile pyIsSpace).reverse.dropWhile pyIsSpace).reverse

/-- Python `str.strip()`. -/
def pyStrip (s : String) : String := ⟨stripL s.data⟩

/-- One pass of Python `str.replace(pat, "")`: removes every (non-overlapping,
leftmost-first) occurrence of `pat`.  Fuel-driven; the callers pass the length
of the list, which suffices because each step consumes at least one character
when `pat` is nonempty. -/
def removeAllAux (pat : List Char) : Nat → List Char → List Char
  | 0, l => l
  | _ + 1, [] => []
  | fuel + 1, l@(c :: t) =>
    if startsWithL pat l then removeAllAux pat fuel (l.drop pat.length)
    else c :: removeAllAux pat fuel t

/-- Python `s.replace(pat, "")`. -/
def removeAll (s pat : String) : String := ⟨removeAllAux pat.data s.data.length s.data⟩

/-! ### `json.loads`, modelled -/

/-- The values `json.loads` can return.  Numbers are kept as their source
lexeme (the claims only involve the integer literal `1`). -/
inductive JsonValue where
  | null
  | bool (b : Bool)
  | num (lexeme : String)
  | str (s : String)
  | arr (items : List JsonValue)
  | obj (entries : List (String × JsonValue))

/-- JSON's whitespace characters (what Python's json scanner skips). -/
def jsonWs (c : Char) : Bool := c = ' ' || c = '\t' || c = '\n' || c = '\r'

/-- Skip JSON whitespace. -/
def skipWs (l : List Char) : List Char := l.dropWhile jsonWs

/-- Hexadecimal digit value. -/
def hexVal (c : Char) : Option Nat :=
  if '0' ≤ c ∧ c ≤ '9' then some (c.val.toNat - 48)
  else if 'a' ≤ c ∧ c ≤ 'f' then some (c.val.toNat - 87)
  else if 'A' ≤ c ∧ c ≤ 'F' then some (c.val.toNat - 55)
  else none

/-- Parse the body of a JSON string (after the opening quote), handling the
escapes Python's json accepts, surrogate pairs included; literal control
characters are rejected as in strict-mode `json.loads`. -/
def parseJStrAux : Nat → List Char → List Char → Option (List Char × List Char)
  | 0, _, _ => none
  | fuel + 1, acc, l =>
    match l with
    | [] => none
    | '"' :: rest => some (acc.reverse, rest)
    | '\\' :: esc =>
      match esc with
      | '"' :: r => parseJStrAux fuel ('"' :: acc) r
      | '\\' :: r => parseJStrAux fuel ('\\' :: acc) r
      | '/' :: r => parseJStrAux fuel ('/' :: acc) r
      | 'b' :: r => parseJStrAux fuel ('\x08' :: acc) r
      | 'f' :: r => parseJStrAux fuel ('\x0c' :: acc) r
      | 'n' :: r => parseJStrAux fuel ('\n' :: acc) r
      | 'r' :: r => parseJStrAux fuel ('\r' :: acc) r
      | 't' :: r => parseJStrAux fuel ('\t' :: acc) r
      | 'u' :: h1 :: h2 :: h3 :: h4 :: r =>
        match hexVal h1, hexVal h2, hexVal h3, hexVal h4 with
        | some a, some b, some c, some d =>
          let v := ((a * 16 + b) * 16 + c) * 16 + d
          if 0xd800 ≤ v ∧ v ≤ 0xdbff then
            match r with
            | '\\' :: 'u' :: g1 :: g2 :: g3 :: g4 :: r2 =>
              match hexVal g1, hexVal g2, hexVal g3, hexVal g4 with
              | some a2, some b2, some c2, some d2 =>
                let w := ((a2 * 16 + b2) * 16 + c2) * 16 + d2
                if 0xdc00 ≤ w ∧ w ≤ 0xdfff then
                  parseJStrAux fuel
                    (Char.ofNat (0x10000 + (v - 0xd800) * 0x400 + (w - 0xdc00)) :: acc) r2
                else parseJStrAux fuel (Char.ofNat v :: acc) r
              | _, _, _, _ => parseJStrAux fuel (Char.ofNat v :: acc) r
            | _ => parseJStrAux fuel (Char.ofNat v :: acc) r
          else parseJStrAux fuel (Char.ofNat v :: acc) r
        | _, _, _, _ => none
      | _ => none
    | c :: r => if c.val.toNat < 0x20 then none else parseJStrAux fuel (c :: acc) r

/-- Parse a JSON number lexeme, following the scanner's number grammar
(`-?(0|[1-9][0-9]*)(.[0-9]+)?([eE][-+]?[0-9]+)?`). -/
def parseNumLex (l : List Char) : Option (List Char × List Char) :=
  let (neg, l1) : List Char × List Char :=
    match l with
    | '-' :: r => (['-'], r)
    | _ => ([], l)
  match l1 with
  | [] => none
  | c :: _ =>
    if c.isDigit then
      let intPart := if c = '0' then ['0'] else l1.takeWhile Char.isDigit
      let l2 := l1.drop intPart.length
      let (fracPart, l3) : List Char × List Char :=
        match l2 with
        | '.' :: r =>
          let ds := r.takeWhile Char.isDigit
          if ds.isEmpty then ([], l2) else ('.' :: ds, r.drop ds.length)
        | _ => ([], l2)
      let (expPart, l4) : List Char × List Char :=
        match l3 with
        | e :: r =>
          if e = 'e' ∨ e = 'E' then
            let (sgn, r2) : List Char × List Char :=
              match r with
              | '+' :: rr => (['+'], rr)
              | '-' :: rr => (['-'], rr)
              | _ => ([], r)
            let ds := r2.takeWhile Char.isDigit
            if ds.isEmpty then ([], l3) else (e :: (sgn ++ ds), r2.drop ds.length)
          else ([], l3)
        | _ => ([], l3)
      some (neg ++ intPart ++ fracPart ++ expPart, l4)
    else none

/-- Insert a key into an object the way building a Python dict from parsed
pairs does: a repeated key keeps its original position and takes the newer
value. -/
def upsert (l : List (String × JsonValue)) (k : String) (v : JsonValue) :
    List (String × JsonValue) :=
  if l.any (fun p => p.1 = k) then l.map (fun p => if p.1 = k then (k, v) else p)
  else l ++ [(k, v)]

mutual

/-- Parse one JSON value at the head of `l` (no leading whitespace). -/
def parseVal : Nat → List Char → Option (JsonValue × List Char)
  | 0, _ => none
  | fuel + 1, l =>
    match l with
    | [] => none
    | '{' :: rest => parseObjStart fuel (skipWs rest)
    | '[' :: rest => parseArrStart fuel (skipWs rest)
    | '"' :: rest =>
      match parseJStrAux (fuel + 1) [] rest with
      | some (cs, r) => some (.str ⟨cs⟩, r)
      | none => none
    | 't' :: 'r' :: 'u' :: 'e' :: r => some (.bool true, r)
    | 'f' :: 'a' :: 'l' :: 's' :: 'e' :: r => some (.bool false, r)
    | 'n' :: 'u' :: 'l' :: 'l' :: r => some (.null, r)
    | 'N' :: 'a' :: 'N' :: r => some (.num "NaN", r)
    | 'I' :: 'n' :: 'f' :: 'i' :: 'n' :: 'i' :: 't' :: 'y' :: r => some (.num "Infinity", r)
    | '-' :: 'I' :: 'n' :: 'f' :: 'i' :: 'n' :: 'i' :: 't' :: 'y' :: r =>
      some (.num "-Infinity", r)
    | _ =>
      match parseNumLex l with
      | some (lex, r) => some (.num ⟨lex⟩, r)
      | none => none

/-- After the opening brace (whitespace skipped): empty object or entries. -/
def parseObjStart : Nat → List Char → Option (JsonValue × List Char)
  | 0, _ => none
  | fuel + 1, l =>
    match l with
    | '}' :: r => some (.obj [], r)
    | _ => parseObjRest fuel l []

/-- Parse one `"key": value` entry then either a comma (more entries) or the
closing brace. -/
def parseObjRest : Nat → List Char → List (String × JsonValue) →
    Option (JsonValue × List Char)
  | 0, _, _ => none
  | fuel + 1, l, acc =>
    match l with
    | '"' :: rest =>
      match parseJStrAux (fuel + 1) [] rest with
      | some (kcs, r1) =>
        match skipWs r1 with
        | ':' :: r2 =>
          match parseVal fuel (skipWs r2) with
          | some (v, r3) =>
            let acc2 := upsert acc ⟨kcs⟩ v
            match skipWs r3 with
            | ',' :: r4 => parseObjRest fuel (skipWs r4) acc2
            | '}' :: r4 => some (.obj acc2, r4)
            | _ => none
          | none => none
        | _ => none
      | none => none
    | _ => none

/-- After the opening bracket (whitespace skipped): empty array or items. -/
def parseArrStart : Nat → List Char → Option (JsonValue × List Char)
  | 0, _ => none
  | fuel + 1, l =>
    match l with
    | ']' :: r => some (.arr [], r)
    | _ => parseArrRest fuel l []

/-- Parse one array item then either a comma (more items) or the closing
bracket. -/
def parseArrRest : Nat → List Char → List JsonValue → Option (JsonValue × List Char)
  | 0, _, _ => none
  | fuel + 1, l, acc =>
    match parseVal fuel l with
    | some (v, r1) =>
      match skipWs r1 with
      | ',' :: r2 => parseArrRest fuel (skipWs r2) (acc ++ [v])
      | ']' :: r2 => some (.arr (acc ++ [v]), r2)
      | _ => none
    | none => none

end

/-- Python's `json.loads`: parse one value, allow surrounding whitespace,
reject trailing data.  Returns `none` where `json.loads` raises. -/
def jsonParse (s : String) : Option JsonValue :=
  match parseVal (2 * s.data.length + 8) (skipWs s.data) with
  | some (v, rest) => if (skipWs rest).isEmpty then some v else none
  | none => none

example : jsonParse "\x7b\x7d" = some (.obj []) := rfl
example : jsonParse "\x7b\"a\": \x7b\"b\": 1\x7d\x7d" =
    some (.obj [("a", .obj [("b", .num "1")])]) := rfl
example : jsonParse "\x7bnot valid json" = none := rfl
example : jsonParse "  [1, -2.5e3, \"x\", true, null]  " =
    some (.arr [.num "1", .num "-2.5e3", .str "x", .bool true, .null]) := rfl
example : jsonParse "\x7b\"a\": 1, \"b\": 2, \"a\": 3\x7d" =
    some (.obj [("a", .num "3"), ("b", .num "2")]) := rfl
example : jsonParse "" = none := rfl
example : jsonParse "\x7b\"a\" 1\x7d" = none := rfl

/-! ### `ParsedResponse` and `AgentWorker.parse_response` (agent.py) -/

/-- The tagged variants `parse_response` can return: the `type` field of the
dicts built in `agent.py` / `agent_fixed.py` (`tool`, `answer`, `thought`,
`error`). -/
inductive ParsedResponse where
  | tool (tool : String) (args : JsonValue)
  | answer (content : String)
  | thought (content : String)
  | error (content : String)

/-- The brace-matching scan of `parse_response` (agent.py lines 112-124):
walk the characters keeping a (signed) count of unmatched braces and a flag
recording whether any opening brace was seen; once the flag is set and the
count returns to zero, the position one past the current character is the end
of the extracted span. -/
def braceScanAux : List Char → Int → Bool → Nat → Option Nat
  | [], _, _, _ => none
  | c :: rest, count, started, idx =>
    let count2 := if c = '{' then count + 1 else if c = '}' then count - 1 else count
    let started2 := started || c = '{'
    if started2 && count2 = 0 then some (idx + 1)
    else braceScanAux rest count2 started2 (idx + 1)

/-- Argument extraction of agent.py's `parse_response` applied to the text
after `ARGS:` (already stripped): take the first balanced brace span (or the
first line if none), clean markdown fencing, try `json.loads`, and fall back
to a single `raw` field holding the first line. -/
def argsFromPart (args_part : String) : JsonValue :=
  let json_str0 :=
    match braceScanAux args_part.data 0 false 0 with
    | some e => (⟨args_part.data.take e⟩ : String)
    | none => firstLine args_part
  let json_str := pyStrip (removeAll (removeAll json_str0 "```json") "```")
  match jsonParse json_str with
  | some v => v
  | none => .obj [("raw", .str (firstLine args_part))]

/-- Tool-name extraction of agent.py's `parse_response`: first line after the
`TOOL:` marker, stripped, truncated at a parameter list if one is present. -/
def extractToolName (r : String) : String :=
  let tool_line := pyStrip (firstLine (afterFirst r "TOOL:"))
  if containsStr tool_line "(" then pyStrip ⟨tool_line.data.takeWhile (fun c => c ≠ '(')⟩
  else tool_line

/-- The argument block handed to `argsFromPart`: text after `ARGS:` stripped,
or the literal empty object when there is no `ARGS:` marker. -/
def extractArgs (r : String) : JsonValue :=
  argsFromPart (if containsStr r "ARGS:" then pyStrip (afterFirst r "ARGS:") else "\x7b\x7d")

/-- The fixed keyword list of agent.py's raw-command fallback (line 149). -/
def rawPatterns : List String :=
  ["docker ps", "docker logs", "systemctl", "kubectl", "curl ", "git status",
   "nmap ", "ipconfig"]

/-- Strip the filler phrases `let me run `, `running `, `execute ` from the
front of a raw command, sequentially, comparing case-insensitively
(agent.py lines 153-155). -/
def stripFillers (cmd : String) : String :=
  ["let me run ", "running ", "execute "].foldl
    (fun c p => if startsWithL p.data (pyLower c).data then ⟨c.data.drop p.length⟩ else c)
    cmd

/-- agent.py's raw-command fallback: if any keyword occurs in the lowercased
response, the first line of the response (stripped, fillers removed) becomes a
`run_command` invocation. -/
def rawFallback (r : String) : Option String :=
  if rawPatterns.any (fun p => containsStr (pyLower r) p) then
    some (stripFillers (pyStrip (firstLine r)))
  else none

/-- `AgentWorker.parse_response` from `src/agent-cli/agent.py` (lines 98-159).
The `TOOL:` branch's enclosing `try` can never raise (every operation inside
it is total and `json.loads` is already guarded), so the branch always
produces a `tool` result. -/
def parse_response (response : String) : ParsedResponse :=
  if containsStr (pyStrip response) "TOOL:" then
    .tool (extractToolName (pyStrip response)) (extractArgs (pyStrip response))
  else if containsStr (pyStrip response) "ANSWER:" then
    .answer (pyStrip (afterFirst (pyStrip response) "ANSWER:"))
  else
    match rawFallback (pyStrip response) with
    | some cmd => .tool "run_command" (.obj [("command", .str cmd)])
    | none => .thought (pyStrip response)

example : parse_response "TOOL: list_files" = .tool "list_files" (.obj []) := rfl
example : parse_response "TOOL: list_files(path)\nARGS: \x7b\"path\": \"/app\"\x7d" =
    .tool "list_files" (.obj [("path", .str "/app")]) := rfl
example : parse_response "TOOL: x\nARGS: \x7bnot valid json" =
    .tool "x" (.obj [("raw", .str "\x7bnot valid json")]) := rfl
example : parse_response "TOOL: t\nARGS: \x7b\"a\": \x7b\"b\": 1\x7d\x7d\nextra text" =
    .tool "t" (.obj [("a", .obj [("b", .num "1")])]) := rfl
example : parse_response "ANSWER: 42" = .answer "42" := rfl
example : parse_response "  hello  " = .thought "hello" := rfl
example : parse_response "let me run docker ps" =
    .tool "run_command" (.obj [("command", .str "docker ps")]) := rfl
example : parse_response "TOOL: x\nARGS: \x7b\x7d\nANSWER: done" =
    .tool "x" (.obj []) := rfl

/-! ### A small regex engine for agent_fixed.py's raw-command fallback -/

/-- Regular expressions as used by the fixed variant's fallback patterns:
literals, character classes, sequencing, ordered choice, greedy star and a
numbered capture group. -/
inductive RE where
  | emp
  | lit (c : Char)
  | cls (p : Char → Bool)
  | seq (a b : RE)
  | alt (a b : RE)
  | star (a : RE)
  | group (n : Nat) (a : RE)

/-- Backtracking matcher in continuation-passing style; `alt` prefers its left
branch and `star` prefers consuming, which is exactly Python's
leftmost-greedy semantics.  Captures are recorded as (group index, consumed
characters).  Fuel bounds the recursion depth; the entry points pass an
amount that is large enough for every pattern the code uses. -/
def matchRE : Nat → RE → List Char → List (Nat × List Char) →
    (List Char → List (Nat × List Char) → Option (List (Nat × List Char))) →
    Option (List (Nat × List Char))
  | 0, _, _, _, _ => none
  | fuel + 1, e, s, caps, k =>
    match e with
    | .emp => k s caps
    | .lit c =>
      match s with
      | [] => none
      | c2 :: rest => if c = c2 then k rest caps else none
    | .cls p =>
      match s with
      | [] => none
      | c2 :: rest => if p c2 then k rest caps else none
    | .seq a b => matchRE fuel a s caps (fun s2 caps2 => matchRE fuel b s2 caps2 k)
    | .alt a b =>
      match matchRE fuel a s caps k with
      | some r => some r
      | none => matchRE fuel b s caps k
    | .star a =>
      match matchRE fuel a s caps (fun s2 caps2 =>
        if s2.length < s.length then matchRE fuel (.star a) s2 caps2 k else none) with
      | some r => some r
      | none => k s caps
    | .group n a =>
      matchRE fuel a s caps
        (fun s2 caps2 => k s2 ((n, s.take (s.length - s2.length)) :: caps2))

/-- `re.search`: try an anchored match at each position, leftmost first. -/
def reSearch (e : RE) : List Char → Option (List (Nat × List Char))
  | [] => matchRE 64 e [] [] (fun _ caps => some caps)
  | l@(_ :: t) =>
    match matchRE ((l.length + 1) * 64) e l [] (fun _ caps => some caps) with
    | some caps => some caps
    | none => reSearch e t

/-- `\w` of Python's `re` (ASCII part, which is all the fallback needs). -/
def reWord (c : Char) : Bool := c.isAlphanum || c = '_'

/-- `.` of Python's `re`: any character except a newline. -/
def reDot (c : Char) : Bool := c ≠ '\n'

/-- A literal string as a regex. -/
def litStr (s : String) : RE := s.data.foldr (fun c acc => .seq (.lit c) acc) .emp

/-- `\s+`. -/
def wsPlus : RE := .seq (.cls pyIsSpace) (.star (.cls pyIsSpace))

/-- `(\w+)` as capture group 1. -/
def wordGroup : RE := .group 1 (.seq (.cls reWord) (.star (.cls reWord)))

/-- `(.+)` as capture group 1. -/
def dotGroup : RE := .group 1 (.seq (.cls reDot) (.star (.cls reDot)))

/-- Look up capture group 1 in a match result. -/
def grp1 (caps : List (Nat × List Char)) : Option String :=
  match caps.find? (fun p => p.1 = 1) with
  | some p => some ⟨p.2⟩
  | none => none

/-- `m.group(1) or "."` — Python treats a missing or empty capture as falsy. -/
def grp1OrDot (caps : List (Nat × List Char)) : String :=
  match grp1 caps with
  | some s => if s.data.isEmpty then "." else s
  | none => "."

/-- The ordered pattern table of `agent_fixed.py`'s raw-command fallback
(lines 117-130), each with its tool name and argument builder.  The search is
applied to the lowercased response, so captured text is lowercase, exactly as
in the source. -/
def fixedRawFallback (r : String) : Option (String × JsonValue) :=
  let low := (pyLower r).data
  match reSearch (.seq (litStr "docker") (.seq wsPlus (litStr "ps"))) low with
  | some _ => some ("docker_ps", .obj [])
  | none =>
  match reSearch (.seq (litStr "docker") (.seq wsPlus (.seq (litStr "logs")
      (.seq wsPlus wordGroup)))) low with
  | some caps => some ("docker_logs", .obj [("container", .str (grp1OrDot caps))])
  | none =>
  match reSearch (.seq (litStr "docker") (.seq wsPlus (litStr "info"))) low with
  | some _ => some ("run_command", .obj [("command", .str "docker info")])
  | none =>
  match reSearch (.seq (litStr "systemctl") (.seq wsPlus (.seq (litStr "status")
      (.seq wsPlus wordGroup)))) low with
  | some caps =>
    some ("run_command", .obj [("command", .str ("sc query " ++ grp1OrDot caps))])
  | none =>
  match reSearch (.seq (litStr "kubectl") (.seq wsPlus (.seq (litStr "get")
      (.seq wsPlus (litStr "pods"))))) low with
  | some _ => some ("get_pods", .obj [])
  | none =>
  match reSearch (.seq (litStr "git") (.seq wsPlus (litStr "status"))) low with
  | some _ => some ("git_status", .obj [("repo", .str ".")])
  | none =>
  match reSearch (.seq (litStr "git") (.seq wsPlus (litStr "log"))) low with
  | some _ => some ("git_log", .obj [("repo", .str ".")])
  | none =>
  match reSearch (.seq (litStr "ls") (.seq wsPlus (.seq (.alt (.lit '-') .emp)
      (.seq (.star (.cls reWord)) (.seq (.star (.cls pyIsSpace))
        (.alt dotGroup .emp)))))) low with
  | some caps => some ("list_files", .obj [("path", .str (grp1OrDot caps))])
  | none =>
  match reSearch (.seq (litStr "dir") (.seq wsPlus (.alt dotGroup .emp))) low with
  | some caps => some ("list_files", .obj [("path", .str (grp1OrDot caps))])
  | none =>
  match reSearch (.seq (litStr "cat") (.seq wsPlus dotGroup)) low with
  | some caps => some ("read_file", .obj [("path", .str (grp1OrDot caps))])
  | none =>
  match reSearch (.seq (litStr "curl") (.seq wsPlus dotGroup)) low with
  | some caps => some ("fetch_url", .obj [("url", .str (grp1OrDot caps))])
  | none =>
  match reSearch (.seq (litStr "nmap") wsPlus) low with
  | some _ => some ("run_command", .obj [("command", .str "echo nmap not available")])
  | none => none

/-- The argument extraction of agent_fixed.py's `parse_response` (lines
107-111): line-based (no brace matching, no markdown cleaning); a JSON
failure degrades to an empty dict. -/
def fixedExtractArgs (r : String) : JsonValue :=
  match jsonParse (firstLine
      (if containsStr r "ARGS:" then pyStrip (afterFirst r "ARGS:") else "\x7b\x7d")) with
  | some v => v
  | none => .obj []

/-- `AgentWorker.parse_response` from `src/agent-cli/agent_fixed.py`
(lines 94-141): the answer marker is checked BEFORE the tool marker, and raw
commands go through the regex table above. -/
def fixed_parse_response (response : String) : ParsedResponse :=
  if containsStr (pyStrip response) "ANSWER:" then
    .answer (pyStrip (afterFirst (pyStrip response) "ANSWER:"))
  else if containsStr (pyStrip response) "TOOL:" then
    .tool (pyStrip (firstLine (afterFirst (pyStrip response) "TOOL:")))
      (fixedExtractArgs (pyStrip response))
  else
    match fixedRawFallback (pyStrip response) with
    | some (name, args) => .tool name args
    | none => .thought (pyStrip response)

example : fixed_parse_response "TOOL: x\nARGS: \x7b\x7d\nANSWER: done" = .answer "done" := rfl
example : fixed_parse_response "TOOL: read_file\nARGS: \x7b\"path\": \"a\"\x7d" =
    .tool "read_file" (.obj [("path", .str "a")]) := rfl
example : fixed_parse_response "TOOL: x\nARGS: \x7bnot valid json" = .tool "x" (.obj []) := rfl
example : fixed_parse_response "TOOL: list_files" = .tool "list_files" (.obj []) := rfl
example : fixed_parse_response "I will now run docker ps" = .tool "docker_ps" (.obj []) := rfl
example : fixed_parse_response "docker logs nginx" =
    .tool "docker_logs" (.obj [("container", .str "nginx")]) := rfl
example : fixed_parse_response "Run CAT notes.txt" =
    .tool "read_file" (.obj [("path", .str "notes.txt")]) := rfl
example : fixed_parse_response "just musing" = .thought "just musing" := rfl

/-! ### `AgentWorker.run` (agent.py): the ReAct loop -/

/-- One role-tagged chat message. -/
structure Message where
  role : String
  content : String

/-- One entry of `self.history`: the dict appended per loop iteration
(agent.py line 236). -/
structure IterRecord where
  iteration : Nat
  response : String
  parsed : ParsedResponse

/-- The result dicts `run` can return.  `Option` fields model keys that are
present only in some of the dicts (the `complete` dict has no
`partial_history`; the error dict built by the orchestrator has no
`agent_id`). -/
structure RunResult where
  status : String
  agent_id : Option String := none
  answer : Option String := none
  iterations : Nat := 0
  partial_history : Option (List IterRecord) := none

/-- The mutable per-instance state set up by `AgentWorker.__init__` that
`run` reads or writes: the agent id, the model name, the history list and the
iteration budget.  The remaining `__init__` fields (endpoint URLs, auth
token, MCP client, tool catalogue text) are read-only configuration of the
external collaborators and are not touched by the loop logic. -/
structure AgentState where
  agent_id : String
  model : String
  history : List IterRecord
  max_iterations : Nat

/-- Python `l[-n:]`: the trailing slice of at most `n` elements. -/
def lastN (n : Nat) (l : List α) : List α := l.drop (l.length - n)

/-- The `tool_descriptions` literal of agent.py (lines 23-59), verbatim. -/
def toolDescriptions : String :=
  "\nAvailable Tools:\n" ++
  "1. list_files(path) - List files in a directory\n" ++
  "2. read_file(path) - Read contents of a file\n" ++
  "3. write_file(path, content) - Write content to a file\n" ++
  "4. git_status(repo) - Get git status of a repository\n" ++
  "5. git_log(repo) - Get recent git commits\n" ++
  "6. get_pods(namespace) - List Kubernetes pods (default: \"default\")\n" ++
  "7. kubectl_logs(pod, namespace, tail) - Get logs from a Kubernetes pod (default namespace: \"default\", default tail: 100)\n" ++
  "8. docker_ps() - List running Docker containers\n" ++
  "9. docker_logs(container, tail) - Get logs from a container (default tail: 100)\n" ++
  "10. run_command(command) - Run any shell command\n" ++
  "11. fetch_url(url) - Fetch content from a URL\n" ++
  "12. web_search(query) - Search the web for information\n" ++
  "\nFORMAT INSTRUCTIONS:\n" ++
  "To call a tool, you MUST use this exact format. Do not add any other text or markdown code blocks around it.\n" ++
  "TOOL: tool_name\n" ++
  "ARGS: \x7b\"arg_name\": \"value\", \"another_arg\": \"another_value\"\x7d\n" ++
  "\nThe ARGS MUST be a valid JSON dictionary.\n" ++
  "\nExample 1: Listing files\n" ++
  "TOOL: list_files\n" ++
  "ARGS: \x7b\"path\": \"/app\"\x7d\n" ++
  "\nExample 2: Running a shell command\n" ++
  "TOOL: run_command\n" ++
  "ARGS: \x7b\"command\": \"ls -la /tmp\"\x7d\n" ++
  "\nExample 3: Searching the web\n" ++
  "TOOL: web_search\n" ++
  "ARGS: \x7b\"query\": \"latest kubernetes version\"\x7d\n" ++
  "\nWhen you have the final answer, respond with:\n" ++
  "ANSWER: <your answer>\n"

/-- The system prompt `run` builds (agent.py line 212). -/
def systemPromptText : String :=
  "You are an autonomous agent with access to tools. " ++ toolDescriptions ++
  "\n\nIMPORTANT: Use web_search for current events or anything after your knowledge cutoff. After getting useful tool results, provide ANSWER immediately - do not make unnecessary extra searches. Be concise."

/-- The initial conversation state of one `run` call (agent.py lines 211-214). -/
def initMessages (task : String) : List Message :=
  [⟨"system", systemPromptText⟩, ⟨"user", task⟩]

/-- The first-iteration override (agent.py lines 221-231): when the response
has no tool marker, a task matching one of the coarse intent heuristics
replaces the response with a forced tool call. -/
def forceToolResponse (task response : String) : String :=
  if containsStr (pyLower task) "docker" &&
      (containsStr (pyLower task) "list" || containsStr (pyLower task) "container") then
    "TOOL: docker_ps\nARGS: \x7b\x7d"
  else if containsStr (pyLower task) "kubernetes" || containsStr (pyLower task) "pod" then
    "TOOL: get_pods\nARGS: \x7b\x7d"
  else if containsStr (pyLower task) "file" && containsStr (pyLower task) "list" then
    "TOOL: list_files\nARGS: \x7b\"path\": \".\"\x7d"
  else if containsStr (pyLower task) "status" || containsStr (pyLower task) "check" then
    "TOOL: get_pods\nARGS: \x7b\x7d"
  else response

/-- Does a task trigger any of the first-iteration override heuristics? -/
def overrideMatches (task : String) : Bool :=
  (containsStr (pyLower task) "docker" &&
    (containsStr (pyLower task) "list" || containsStr (pyLower task) "container")) ||
  containsStr (pyLower task) "kubernetes" || containsStr (pyLower task) "pod" ||
  (containsStr (pyLower task) "file" && containsStr (pyLower task) "list") ||
  containsStr (pyLower task) "status" || containsStr (pyLower task) "check"

/-- The effective response of one loop iteration (agent.py lines 219-231):
the model's output, replaced by the first-iteration override when `i == 0`,
the output has no tool marker, and the task matches a heuristic. -/
def stepResponse (llm : List Message → String) (task : String) (i : Nat)
    (msgs : List Message) : String :=
  if i == 0 && !containsStr (llm msgs) "TOOL:" then forceToolResponse task (llm msgs)
  else llm msgs

/-- The `for i in range(self.max_iterations)` loop of `AgentWorker.run`
(agent.py lines 216-267), with the model endpoint (`llm`) and the tool
executor (`tools`) as oracles — both are total string-returning wrappers in
the source.  The first argument pair is the loop index `i` and the number of
remaining iterations; the threaded list is `self.history`, which the loop
only appends to.  Returns the final history together with the result dict. -/
def runAux (llm : List Message → String) (tools : String → JsonValue → String)
    (agentId task : String) (maxIter : Nat) :
    Nat → Nat → List Message → List IterRecord → List IterRecord × RunResult
  | _, 0, _, hist =>
    (hist, { status := "max_iterations", agent_id := some agentId,
             iterations := maxIter, partial_history := some (lastN 3 hist) })
  | i, rem + 1, msgs, hist =>
    match parse_response (stepResponse llm task i msgs) with
    | .answer c =>
      (hist ++ [⟨i + 1, stepResponse llm task i msgs, .answer c⟩],
       { status := "complete", agent_id := some agentId, answer := some c,
         iterations := i + 1 })
    | .tool name args =>
      runAux llm tools agentId task maxIter (i + 1) rem
        (msgs ++ [⟨"assistant", stepResponse llm task i msgs⟩,
                  ⟨"user", "Tool result:\n" ++ tools name args ++
                    "\n\nContinue reasoning or provide ANSWER."⟩])
        (hist ++ [⟨i + 1, stepResponse llm task i msgs, .tool name args⟩])
    | parsed =>
      runAux llm tools agentId task maxIter (i + 1) rem
        (msgs ++ [⟨"assistant", stepResponse llm task i msgs⟩,
                  ⟨"user", "Continue. Use a TOOL or provide ANSWER."⟩])
        (hist ++ [⟨i + 1, stepResponse llm task i msgs, parsed⟩])

/-- `AgentWorker.run`: build the initial conversation state, run the loop,
and leave the (appended-to) history on the instance. -/
def AgentWorker.run (llm : List Message → String) (tools : String → JsonValue → String)
    (st : AgentState) (task : String) : AgentState × RunResult :=
  let out := runAux llm tools st.agent_id task st.max_iterations 0 st.max_iterations
    (initMessages task) st.history
  ({ st with history := out.1 }, out.2)

example :
    (AgentWorker.run (fun _ => "hmm") (fun _ _ => "ok") ⟨"a", "m", [], 2⟩ "solve").2.status =
      "max_iterations" := rfl
example :
    (AgentWorker.run (fun _ => "hmm") (fun _ _ => "ok") ⟨"a", "m", [], 2⟩ "solve").1.history.length =
      2 := rfl
example :
    (AgentWorker.run (fun _ => "ANSWER: 42") (fun _ _ => "ok") ⟨"a", "m", [], 10⟩ "greet").2 =
      { status := "complete", agent_id := some "a", answer := some "42", iterations := 1 } := rfl
example :
    (AgentWorker.run (fun _ => "ANSWER: 42") (fun _ _ => "ok") ⟨"a", "m", [], 10⟩
      "list docker containers").2.iterations = 2 := rfl
example :
    (AgentWorker.run (fun _ => "ANSWER: 42") (fun _ _ => "ok") ⟨"a", "m", [], 10⟩
      "list docker containers").2.status = "complete" := rfl

/-! ### `MultiAgentOrchestrator.execute_parallel` (orchestrator.py) -/

/-- The per-future gather step of `execute_parallel` (orchestrator.py lines
117-127): a normal completion contributes its result, a raised exception is
caught and replaced by an error dict carrying the error text and zero
iterations.  `runAgent i t` stands for the submitted `_run_agent(i, task)`
call, with a raised exception modelled as `Except.error`. -/
def gatherOne (runAgent : Nat → String → Except String RunResult)
    (subtasks : List String) (i : Nat) : RunResult :=
  match runAgent i (subtasks.getD i "") with
  | .ok r => r
  | .error e => { status := "error", answer := some ("Agent error: " ++ e), iterations := 0 }

/-- `results.sort(key=lambda x: x[0])` (orchestrator.py line 130). -/
def sortByIdx {α : Type} (l : List (Nat × α)) : List (Nat × α) :=
  List.insertionSort (fun a b => a.1 ≤ b.1) l

/-- `MultiAgentOrchestrator.execute_parallel` (orchestrator.py lines
107-131): agents are gathered in completion order (`order`, a permutation of
the subtask indices, abstracting `as_completed`), tagged with their
originating index, sorted by that index, and the tags dropped. -/
def MultiAgentOrchestrator.execute_parallel (order : List Nat)
    (runAgent : Nat → String → Except String RunResult)
    (subtasks : List String) : List RunResult :=
  (sortByIdx (order.map (fun i => (i, gatherOne runAgent subtasks i)))).map (fun p => p.2)

example :
    MultiAgentOrchestrator.execute_parallel [1, 0]
      (fun i t => .ok { status := "complete", answer := some t, iterations := i })
      ["s0", "s1"] =
    [{ status := "complete", answer := some "s0", iterations := 0 },
     { status := "complete", answer := some "s1", iterations := 1 }] := rfl

/-- Sorting index-tagged values whose tags are a permutation of `range n`
recovers the tags in index order: the key step behind the orchestrator's
ordering invariant. -/
theorem sortByIdx_map_perm_range {α : Type} (g : Nat → α) (order : List Nat) (n : Nat)
    (h : order.Perm (List.range n)) :
    sortByIdx (order.map fun i => (i, g i)) = (List.range n).map fun i => (i, g i) := by
  classical
  letI : IsTotal (Nat × α) (fun a b => a.1 ≤ b.1) := ⟨fun a b => Nat.le_total a.1 b.1⟩
  letI : IsTrans (Nat × α) (fun a b => a.1 ≤ b.1) := ⟨fun _ _ _ hab hbc => Nat.le_trans hab hbc⟩
  letI : IsAntisymm (Nat × α) (fun a b => a.1 < b.1) :=
    ⟨fun a b h1 h2 => absurd h2 (Nat.lt_asymm h1)⟩
  have hfst : ∀ l : List Nat, (l.map fun i => (i, g i)).map Prod.fst = l := by
    intro l
    rw [List.map_map]
    exact List.map_id l
  have hperm : (sortByIdx (order.map fun i => (i, g i))).Perm
      ((List.range n).map fun i => (i, g i)) :=
    (List.perm_insertionSort _ _).trans (h.map _)
  have hsorted : List.Sorted (fun a b : Nat × α => a.1 ≤ b.1)
      (sortByIdx (order.map fun i => (i, g i))) :=
    List.sorted_insertionSort _ _
  have hkeys : ((sortByIdx (order.map fun i => (i, g i))).map Prod.fst).Nodup := by
    have hp : ((sortByIdx (order.map fun i => (i, g i))).map Prod.fst).Perm (List.range n) := by
      have := (List.perm_insertionSort
        (fun a b : Nat × α => a.1 ≤ b.1) (order.map fun i => (i, g i))).map Prod.fst
      rw [hfst] at this
      exact this.trans h
    exact hp.nodup_iff.mpr (List.nodup_range n)
  have hne : (sortByIdx (order.map fun i => (i, g i))).Pairwise
      (fun a b : Nat × α => a.1 ≠ b.1) := by
    have := hkeys
    unfold List.Nodup at this
    exact List.pairwise_map.mp this
  have hlt1 : List.Sorted (fun a b : Nat × α => a.1 < b.1)
      (sortByIdx (order.map fun i => (i, g i))) :=
    (hsorted.and hne).imp fun hab => Nat.lt_of_le_of_ne hab.1 hab.2
  have hlt2 : List.Sorted (fun a b : Nat × α => a.1 < b.1)
      ((List.range n).map fun i => (i, g i)) :=
    List.pairwise_map.mpr ((List.pairwise_lt_range n).imp fun hij => hij)
  exact List.eq_of_perm_of_sorted hperm hlt1 hlt2

/-- `execute_parallel` rebuilds results in subtask-index order: for any
completion order that is a permutation of the indices, the returned list is
the per-index gather outcome, in index order. -/
theorem execute_parallel_eq (order : List Nat)
    (runAgent : Nat → String → Except String RunResult) (subtasks : List String)
    (h : order.Perm (List.range subtasks.length)) :
    MultiAgentOrchestrator.execute_parallel order runAgent subtasks =
      (List.range subtasks.length).map (gatherOne runAgent subtasks) := by
  unfold MultiAgentOrchestrator.execute_parallel
  rw [sortByIdx_map_perm_range (gatherOne runAgent subtasks) order subtasks.length h,
    List.map_map]
  rfl

/-! ### Substring/strip lemmas -/

theorem startsWithL_iff : ∀ (p s : List Char), startsWithL p s = true ↔ ∃ v, s = p ++ v
  | p, [] => by
    cases p with
    | nil => simp [startsWithL]
    | cons a pa => simp [startsWithL]
  | p, b :: sb => by
    cases p with
    | nil => simp [startsWithL]
    | cons a pa =>
      simp only [startsWithL, Bool.and_eq_true, decide_eq_true_eq]
      constructor
      · rintro ⟨rfl, hs⟩
        obtain ⟨v, rfl⟩ := (startsWithL_iff pa sb).mp hs
        exact ⟨v, rfl⟩
      · rintro ⟨v, hv⟩
        rw [List.cons_append] at hv
        injection hv with h1 h2
        exact ⟨h1.symm, (startsWithL_iff pa sb).mpr ⟨v, h2⟩⟩

theorem listSub_iff (p : List Char) : ∀ s, listSub p s = true ↔ ∃ u v, s = u ++ p ++ v := by
  intro s
  induction s with
  | nil =>
    constructor
    · intro h
      have hp : p = [] := by
        cases p with
        | nil => rfl
        | cons a q => simp [listSub, startsWithL] at h
      exact ⟨[], [], by simp [hp]⟩
    · rintro ⟨u, v, huv⟩
      obtain ⟨hu, hp, hv⟩ : u = [] ∧ p = [] ∧ v = [] := by
        simpa [List.append_assoc] using huv.symm
      simp [listSub, startsWithL, hp]
  | cons c t ih =>
    simp only [listSub, Bool.or_eq_true]
    constructor
    · rintro (h | h)
      · obtain ⟨v, hv⟩ := (startsWithL_iff p (c :: t)).mp h
        exact ⟨[], v, by simpa using hv⟩
      · obtain ⟨u, v, huv⟩ := ih.mp h
        exact ⟨c :: u, v, by simp [huv]⟩
    · rintro ⟨u, v, huv⟩
      cases u with
      | nil =>
        exact Or.inl ((startsWithL_iff p (c :: t)).mpr ⟨v, by simpa using huv⟩)
      | cons a u2 =>
        refine Or.inr (ih.mpr ⟨u2, v, ?_⟩)
        have h2 : c :: t = a :: (u2 ++ p ++ v) := by simpa using huv
        injection h2 with _ h3

/-- Dropping leading whitespace cannot destroy an occurrence that starts with
a non-whitespace character. -/
theorem dropWhile_keeps_sub {c : Char} (hc : pyIsSpace c = false) :
    ∀ (u rest : List Char), ∃ u2,
      (u ++ c :: rest).dropWhile pyIsSpace = u2 ++ c :: rest := by
  intro u rest
  induction u with
  | nil => exact ⟨[], by simp [List.dropWhile_cons, hc]⟩
  | cons a u ih =>
    by_cases ha : pyIsSpace a = true
    · obtain ⟨u2, h2⟩ := ih
      exact ⟨u2, by simp [List.dropWhile_cons, ha, h2]⟩
    · exact ⟨a :: (u ++ []), by simp [List.dropWhile_cons, ha]⟩

/-- `dropWhile` only removes a prefix. -/
theorem dropWhile_is_trailing (q : Char → Bool) (l : List Char) :
    ∃ u, l = u ++ l.dropWhile q := by
  induction l with
  | nil => exact ⟨[], rfl⟩
  | cons a t ih =>
    by_cases ha : q a = true
    · obtain ⟨u, hu⟩ := ih
      exact ⟨a :: u, by simp [List.dropWhile_cons, ha]; exact hu⟩
    · exact ⟨[], by simp [List.dropWhile_cons, ha]⟩

theorem listSub_reverse (p l : List Char) :
    listSub p l = true ↔ listSub p.reverse l.reverse = true := by
  rw [listSub_iff, listSub_iff]
  constructor
  · rintro ⟨u, v, rfl⟩
    exact ⟨v.reverse, u.reverse, by simp⟩
  · rintro ⟨u, v, huv⟩
    refine ⟨v.reverse, u.reverse, ?_⟩
    have := congrArg List.reverse huv
    simpa using this

/-- Stripping cannot destroy an occurrence of a nonempty all-non-whitespace
pattern (forward direction of strip-invariance). -/
theorem listSub_stripL (p l : List Char) (hp : p ≠ [])
    (hw : ∀ c ∈ p, pyIsSpace c = false) (h : listSub p l = true) :
    listSub p (stripL l) = true := by
  obtain ⟨c, p2, rfl⟩ := List.exists_cons_of_ne_nil hp
  -- step 1: survive the front dropWhile
  have h1 : listSub (c :: p2) (l.dropWhile pyIsSpace) = true := by
    obtain ⟨u, v, hl⟩ := (listSub_iff _ l).mp h
    rw [List.append_assoc] at hl
    subst hl
    obtain ⟨u2, h2⟩ := dropWhile_keeps_sub (hw c (by simp)) u (p2 ++ v)
    apply (listSub_iff _ _).mpr
    exact ⟨u2, v, by simpa [List.append_assoc] using h2⟩
  -- step 2: survive the back dropWhile (on the reverse)
  have h2 : listSub (c :: p2).reverse (l.dropWhile pyIsSpace).reverse = true :=
    (listSub_reverse _ _).mp h1
  obtain ⟨d, q, hdq⟩ : ∃ d q, (c :: p2).reverse = d :: q := by
    cases hq : (c :: p2).reverse with
    | nil => exact absurd (congrArg List.length hq) (by simp)
    | cons d q => exact ⟨d, q, rfl⟩
  have hd : pyIsSpace d = false := by
    have hmem : d ∈ (c :: p2).reverse := by rw [hdq]; simp
    exact hw d (List.mem_reverse.mp hmem)
  have h3 : listSub (c :: p2).reverse
      ((l.dropWhile pyIsSpace).reverse.dropWhile pyIsSpace) = true := by
    rw [hdq] at h2 ⊢
    obtain ⟨u, v, hl⟩ := (listSub_iff _ _).mp h2
    rw [List.append_assoc] at hl
    rw [hl]
    obtain ⟨u2, h4⟩ := dropWhile_keeps_sub hd u (q ++ v)
    apply (listSub_iff _ _).mpr
    exact ⟨u2, v, by simpa [List.append_assoc] using h4⟩
  have h5 : listSub (c :: p2).reverse.reverse
      ((l.dropWhile pyIsSpace).reverse.dropWhile pyIsSpace).reverse = true :=
    (listSub_reverse _ _).mp h3
  simpa [stripL] using h5

/-- Stripping cannot create an occurrence (backward direction): the stripped
list is contiguous inside the original. -/
theorem listSub_of_stripL (p l : List Char) (h : listSub p (stripL l) = true) :
    listSub p l = true := by
  obtain ⟨u1, hu1⟩ := dropWhile_is_trailing pyIsSpace l
  obtain ⟨u2, hu2⟩ := dropWhile_is_trailing pyIsSpace (l.dropWhile pyIsSpace).reverse
  obtain ⟨a, b, hab⟩ := (listSub_iff _ _).mp h
  apply (listSub_iff _ _).mpr
  have hdrop : l.dropWhile pyIsSpace = stripL l ++ u2.reverse := by
    have := congrArg List.reverse hu2
    simpa [stripL] using this
  refine ⟨u1 ++ a, b ++ u2.reverse, ?_⟩
  rw [hu1, hdrop, hab]
  simp [List.append_assoc]

/-- `containsStr` survives `pyStrip` for nonempty non-whitespace patterns
(e.g. the `TOOL:`, `ANSWER:`, `ARGS:` markers). -/
theorem containsStr_pyStrip (s p : String) (hp : p.data ≠ [])
    (hw : ∀ c ∈ p.data, pyIsSpace c = false) (h : containsStr s p = true) :
    containsStr (pyStrip s) p = true :=
  listSub_stripL p.data s.data hp hw h

/-- A marker found after stripping was present before stripping. -/
theorem containsStr_of_pyStrip (s p : String) (h : containsStr (pyStrip s) p = true) :
    containsStr s p = true :=
  listSub_of_stripL p.data s.data h

/-- Contrapositive form: a marker absent from the input is absent from the
stripped input. -/
theorem not_containsStr_pyStrip (s p : String) (h : containsStr s p = false) :
    containsStr (pyStrip s) p = false := by
  cases hv : containsStr (pyStrip s) p with
  | false => rfl
  | true => rw [containsStr_of_pyStrip s p hv] at h; exact h

/-! ### Characterizations of `parse_response` and the loop -/

/-- A response containing the tool marker always takes the `TOOL:` branch
(agent.py never reaches the answer branch in that case). -/
theorem parse_response_tool (s : String) (h : containsStr s "TOOL:" = true) :
    parse_response s = .tool (extractToolName (pyStrip s)) (extractArgs (pyStrip s)) := by
  have h2 : containsStr (pyStrip s) "TOOL:" = true :=
    containsStr_pyStrip s "TOOL:" (by decide) (by decide) h
  unfold parse_response
  rw [if_pos h2]

/-- `parse_response` only produces an `answer` when the input contains the
answer marker. -/
theorem containsAnswer_of_parse_answer (s c : String)
    (h : parse_response s = .answer c) : containsStr s "ANSWER:" = true := by
  unfold parse_response at h
  by_cases h1 : containsStr (pyStrip s) "TOOL:" = true
  · rw [if_pos h1] at h
    exact ParsedResponse.noConfusion h
  · rw [if_neg h1] at h
    by_cases h2 : containsStr (pyStrip s) "ANSWER:" = true
    · exact containsStr_of_pyStrip s "ANSWER:" h2
    · rw [if_neg h2] at h
      cases hr : rawFallback (pyStrip s) with
      | some cmd => rw [hr] at h; exact ParsedResponse.noConfusion h
      | none => rw [hr] at h; exact ParsedResponse.noConfusion h

/-- The forced first-iteration responses never contain the answer marker, so
the override cannot smuggle in an answer. -/
theorem forceTool_no_answer (task r : String) (h : containsStr r "ANSWER:" = false) :
    containsStr (forceToolResponse task r) "ANSWER:" = false := by
  unfold forceToolResponse
  split
  · rfl
  · split
    · rfl
    · split
      · rfl
      · split
        · rfl
        · exact h

/-- When no override heuristic matches the task, the response is unchanged. -/
theorem forceTool_id_of_no_match (task r : String) (h : overrideMatches task = false) :
    forceToolResponse task r = r := by
  simp only [overrideMatches, Bool.or_eq_false_iff, Bool.and_eq_false_iff] at h
  obtain ⟨⟨⟨⟨⟨hA, hB⟩, hC⟩, hD⟩, hE⟩, hF⟩ := h
  unfold forceToolResponse
  split
  · next hc =>
      rcases hA with h1 | ⟨h1, h2⟩
      · simp [h1] at hc
      · simp [h1, h2] at hc
  · split
    · next hc => simp [hB, hC] at hc
    · split
      · next hc =>
          rcases hD with h1 | h1 <;> simp [h1] at hc
      · split
        · next hc => simp [hE, hF] at hc
        · rfl

/-- Core loop invariant for a model that never emits the answer marker: the
loop runs out its remaining budget, appends one record per iteration, and
returns the `max_iterations` dict whose trailing slice is taken from the
final history. -/
theorem runAux_never_answers (llm : List Message → String)
    (tools : String → JsonValue → String) (agentId task : String) (maxIter : Nat)
    (hllm : ∀ msgs, containsStr (llm msgs) "ANSWER:" = false) :
    ∀ rem i msgs hist, ∃ hist2,
      runAux llm tools agentId task maxIter i rem msgs hist =
        (hist ++ hist2,
         { status := "max_iterations", agent_id := some agentId, answer := none,
           iterations := maxIter, partial_history := some (lastN 3 (hist ++ hist2)) }) ∧
      hist2.length = rem := by
  intro rem
  induction rem with
  | zero =>
    intro i msgs hist
    exact ⟨[], by simp [runAux], rfl⟩
  | succ rem ih =>
    intro i msgs hist
    have hnoans : containsStr (stepResponse llm task i msgs) "ANSWER:" = false := by
      unfold stepResponse
      split
      · exact forceTool_no_answer task (llm msgs) (hllm msgs)
      · exact hllm msgs
    have key : ∀ (M : List Message) (rec : IterRecord), ∃ hist2,
        runAux llm tools agentId task maxIter (i + 1) rem M (hist ++ [rec]) =
          (hist ++ hist2,
           { status := "max_iterations", agent_id := some agentId, answer := none,
             iterations := maxIter, partial_history := some (lastN 3 (hist ++ hist2)) }) ∧
        hist2.length = rem + 1 := by
      intro M rec
      obtain ⟨h2, heq, hlen⟩ := ih (i + 1) M (hist ++ [rec])
      refine ⟨rec :: h2, ?_, by simp [hlen]⟩
      rw [heq]
      simp [List.append_assoc]
    simp only [runAux]
    split
    · exact absurd (containsAnswer_of_parse_answer _ _ (by assumption)) (by simp [hnoans])
    · exact key _ _
    · exact key _ _

/-! ### Claim C1: tool marker beats answer marker -/

/-- C1 (amended to agent.py's parser): any input containing both the `TOOL:`
and the `ANSWER:` marker parses as a `tool` result, never as an `answer` —
agent.py's `parse_response` checks `TOOL:` first and that branch always
returns a `tool` value. -/
theorem tool_marker_beats_answer_marker (s : String)
    (ht : containsStr s "TOOL:" = true) (_ha : containsStr s "ANSWER:" = true) :
    ∃ name args, parse_response s = .tool name args :=
  ⟨extractToolName (pyStrip s), extractArgs (pyStrip s), parse_response_tool s ht⟩

/-- C1 witness: a concrete input containing both markers parses as a tool
call under agent.py's parser. -/
theorem tool_marker_beats_answer_marker_witness :
    containsStr "TOOL: x\nARGS: \x7b\x7d\nANSWER: done" "TOOL:" = true ∧
    containsStr "TOOL: x\nARGS: \x7b\x7d\nANSWER: done" "ANSWER:" = true ∧
    ∃ name args,
      parse_response "TOOL: x\nARGS: \x7b\x7d\nANSWER: done" = .tool name args :=
  ⟨rfl, rfl, tool_marker_beats_answer_marker "TOOL: x\nARGS: \x7b\x7d\nANSWER: done" rfl rfl⟩

/-- C1 counterexample: agent_fixed.py's `parse_response` checks the `ANSWER:`
marker FIRST, so the very same both-marker input is classified as an
`answer`, refuting the claim for that parser. -/
theorem fixed_parse_answer_beats_tool_cex :
    containsStr "TOOL: x\nARGS: \x7b\x7d\nANSWER: done" "TOOL:" = true ∧
    containsStr "TOOL: x\nARGS: \x7b\x7d\nANSWER: done" "ANSWER:" = true ∧
    fixed_parse_response "TOOL: x\nARGS: \x7b\x7d\nANSWER: done" = .answer "done" :=
  ⟨rfl, rfl, rfl⟩

/-! ### Claim C2: iteration budget -/

/-- C2: a fresh agent whose model never emits a tool or answer marker runs
exactly `maxIter` loop iterations (one history record per iteration) and
returns the `max_iterations` dict with `iterations = maxIter` and the
trailing 3-record slice of the trace. -/
theorem iteration_budget (llm : List Message → String)
    (tools : String → JsonValue → String) (agentId model task : String) (maxIter : Nat)
    (hllm : ∀ msgs, containsStr (llm msgs) "TOOL:" = false ∧
      containsStr (llm msgs) "ANSWER:" = false) :
    (AgentWorker.run llm tools ⟨agentId, model, [], maxIter⟩ task).2.status =
      "max_iterations" ∧
    (AgentWorker.run llm tools ⟨agentId, model, [], maxIter⟩ task).2.iterations = maxIter ∧
    (AgentWorker.run llm tools ⟨agentId, model, [], maxIter⟩ task).1.history.length =
      maxIter ∧
    (AgentWorker.run llm tools ⟨agentId, model, [], maxIter⟩ task).2.partial_history =
      some (lastN 3 (AgentWorker.run llm tools ⟨agentId, model, [], maxIter⟩ task).1.history) := by
  obtain ⟨h2, heq, hlen⟩ := runAux_never_answers llm tools agentId task maxIter
    (fun msgs => (hllm msgs).2) maxIter 0 (initMessages task) []
  unfold AgentWorker.run
  rw [heq]
  simp [hlen]

/-- C2 witness: four iterations of a pure-thought model stub. -/
theorem iteration_budget_witness :
    (AgentWorker.run (fun _ => "thinking about it") (fun _ _ => "ok")
      ⟨"w", "m", [], 4⟩ "solve the riddle").2.status = "max_iterations" ∧
    (AgentWorker.run (fun _ => "thinking about it") (fun _ _ => "ok")
      ⟨"w", "m", [], 4⟩ "solve the riddle").2.iterations = 4 ∧
    (AgentWorker.run (fun _ => "thinking about it") (fun _ _ => "ok")
      ⟨"w", "m", [], 4⟩ "solve the riddle").1.history.length = 4 ∧
    (AgentWorker.run (fun _ => "thinking about it") (fun _ _ => "ok")
      ⟨"w", "m", [], 4⟩ "solve the riddle").2.partial_history =
      some (lastN 3 (AgentWorker.run (fun _ => "thinking about it") (fun _ _ => "ok")
        ⟨"w", "m", [], 4⟩ "solve the riddle").1.history) :=
  iteration_budget (fun _ => "thinking about it") (fun _ _ => "ok") "w" "m"
    "solve the riddle" 4 (fun _ => ⟨rfl, rfl⟩)

/-! ### Claim C3: answer short-circuit -/

/-- C3 (amended): for every task that does NOT match a first-iteration
override heuristic, an agent whose model answers `ANSWER: 42` on the first
query terminates with `complete`, answer `42`, after exactly one iteration,
for any positive iteration budget. -/
theorem answer_short_circuit (llm : List Message → String)
    (tools : String → JsonValue → String) (st : AgentState) (task : String)
    (hmax : 1 ≤ st.max_iterations)
    (hover : overrideMatches task = false)
    (hfirst : llm (initMessages task) = "ANSWER: 42") :
    (AgentWorker.run llm tools st task).2.status = "complete" ∧
    (AgentWorker.run llm tools st task).2.answer = some "42" ∧
    (AgentWorker.run llm tools st task).2.iterations = 1 := by
  obtain ⟨m, hm⟩ : ∃ m, st.max_iterations = m + 1 :=
    ⟨st.max_iterations - 1, by omega⟩
  have hstep : stepResponse llm task 0 (initMessages task) = "ANSWER: 42" := by
    unfold stepResponse
    rw [hfirst]
    split
    · exact forceTool_id_of_no_match task "ANSWER: 42" hover
    · rfl
  have hparse : parse_response (stepResponse llm task 0 (initMessages task)) =
      .answer "42" := by rw [hstep]; rfl
  unfold AgentWorker.run
  rw [hm]
  simp only [runAux, hparse]
  exact ⟨trivial, trivial, trivial⟩

/-- C3 witness: a non-matching task with the default budget of 10. -/
theorem answer_short_circuit_witness :
    1 ≤ (⟨"w", "m", [], 10⟩ : AgentState).max_iterations ∧
    overrideMatches "greet the user" = false ∧
    (AgentWorker.run (fun _ => "ANSWER: 42") (fun _ _ => "ok")
      ⟨"w", "m", [], 10⟩ "greet the user").2.status = "complete" ∧
    (AgentWorker.run (fun _ => "ANSWER: 42") (fun _ _ => "ok")
      ⟨"w", "m", [], 10⟩ "greet the user").2.answer = some "42" ∧
    (AgentWorker.run (fun _ => "ANSWER: 42") (fun _ _ => "ok")
      ⟨"w", "m", [], 10⟩ "greet the user").2.iterations = 1 := by
  refine ⟨by decide, rfl, ?_⟩
  have h := answer_short_circuit (fun _ => "ANSWER: 42") (fun _ _ => "ok")
    ⟨"w", "m", [], 10⟩ "greet the user" (by decide) rfl rfl
  exact ⟨h.1, h.2.1, h.2.2⟩

/-- C3 counterexample: the task `list docker containers` matches the
first-iteration override, so even though the model answers `ANSWER: 42` on
every query (in particular the first), the run takes TWO iterations — the
override turns iteration 1 into a forced `docker_ps` call — refuting
`iterations = 1` for every task. -/
theorem answer_short_circuit_cex :
    overrideMatches "list docker containers" = true ∧
    (AgentWorker.run (fun _ => "ANSWER: 42") (fun _ _ => "ok")
      ⟨"cli-agent", "lfm2-1.2b", [], 10⟩ "list docker containers").2.status = "complete" ∧
    (AgentWorker.run (fun _ => "ANSWER: 42") (fun _ _ => "ok")
      ⟨"cli-agent", "lfm2-1.2b", [], 10⟩ "list docker containers").2.iterations = 2 :=
  ⟨rfl, rfl, rfl⟩

/-! ### Claim C6: parser totality -/

/-- C6: `parse_response` is a total function — for every input string it
returns one of the `ParsedResponse` variants (in the embedding, the Python
`try/except` structure means no branch can raise: every operation inside the
`TOOL:` branch is total and `json.loads` failure is already converted to the
`raw` fallback, so `Malformed`/`error` is a value, never an exception). -/
theorem parse_response_total (s : String) :
    (∃ name args, parse_response s = .tool name args) ∨
    (∃ c, parse_response s = .answer c) ∨
    (∃ c, parse_response s = .thought c) ∨
    (∃ c, parse_response s = .error c) := by
  unfold parse_response
  by_cases h1 : containsStr (pyStrip s) "TOOL:" = true
  · rw [if_pos h1]
    exact .inl ⟨_, _, rfl⟩
  · rw [if_neg h1]
    by_cases h2 : containsStr (pyStrip s) "ANSWER:" = true
    · rw [if_pos h2]
      exact .inr (.inl ⟨_, rfl⟩)
    · rw [if_neg h2]
      cases hr : rawFallback (pyStrip s) with
      | some cmd => exact .inl ⟨_, _, rfl⟩
      | none => exact .inr (.inr (.inl ⟨_, rfl⟩))

/-! ### Claim C7: argument fallback on invalid JSON -/

/-- C7: when the argument block after `ARGS:` is the unterminated text
`\x7bnot valid json`, the brace scan finds no balanced span, the first-line
fallback fails to parse as JSON, and the arguments degrade to the single-field
mapping `raw ↦ \x7bnot valid json` — still a `tool` result, not an error. -/
theorem args_fallback_raw (s : String)
    (ht : containsStr s "TOOL:" = true)
    (ha : containsStr (pyStrip s) "ARGS:" = true)
    (hblock : pyStrip (afterFirst (pyStrip s) "ARGS:") = "\x7bnot valid json") :
    ∃ name, parse_response s =
      .tool name (.obj [("raw", .str "\x7bnot valid json")]) := by
  refine ⟨extractToolName (pyStrip s), ?_⟩
  rw [parse_response_tool s ht]
  unfold extractArgs
  rw [if_pos ha, hblock]
  rfl

/-- C7 witness. -/
theorem args_fallback_raw_witness :
    containsStr "TOOL: foo\nARGS: \x7bnot valid json" "TOOL:" = true ∧
    containsStr (pyStrip "TOOL: foo\nARGS: \x7bnot valid json") "ARGS:" = true ∧
    pyStrip (afterFirst (pyStrip "TOOL: foo\nARGS: \x7bnot valid json") "ARGS:") =
      "\x7bnot valid json" ∧
    ∃ name, parse_response "TOOL: foo\nARGS: \x7bnot valid json" =
      .tool name (.obj [("raw", .str "\x7bnot valid json")]) :=
  ⟨rfl, rfl, rfl, args_fallback_raw "TOOL: foo\nARGS: \x7bnot valid json" rfl rfl rfl⟩

/-! ### Claim C8: balanced-brace extraction -/

/-- C8: when the argument block is `\x7b"a": \x7b"b": 1\x7d\x7d` followed by a newline
and `extra text`, the balanced-brace scan extracts exactly the nested object
and the trailing text is ignored. -/
theorem balanced_brace_extraction (s : String)
    (ht : containsStr s "TOOL:" = true)
    (ha : containsStr (pyStrip s) "ARGS:" = true)
    (hblock : pyStrip (afterFirst (pyStrip s) "ARGS:") =
      "\x7b\"a\": \x7b\"b\": 1\x7d\x7d\nextra text") :
    ∃ name, parse_response s =
      .tool name (.obj [("a", .obj [("b", .num "1")])]) := by
  refine ⟨extractToolName (pyStrip s), ?_⟩
  rw [parse_response_tool s ht]
  unfold extractArgs
  rw [if_pos ha, hblock]
  rfl

/-- C8 witness. -/
theorem balanced_brace_extraction_witness :
    containsStr "TOOL: t\nARGS: \x7b\"a\": \x7b\"b\": 1\x7d\x7d\nextra text" "TOOL:" = true ∧
    pyStrip (afterFirst (pyStrip "TOOL: t\nARGS: \x7b\"a\": \x7b\"b\": 1\x7d\x7d\nextra text")
      "ARGS:") = "\x7b\"a\": \x7b\"b\": 1\x7d\x7d\nextra text" ∧
    ∃ name, parse_response "TOOL: t\nARGS: \x7b\"a\": \x7b\"b\": 1\x7d\x7d\nextra text" =
      .tool name (.obj [("a", .obj [("b", .num "1")])]) :=
  ⟨rfl, rfl,
   balanced_brace_extraction "TOOL: t\nARGS: \x7b\"a\": \x7b\"b\": 1\x7d\x7d\nextra text"
     rfl rfl rfl⟩

/-! ### Claim C10: tool call without an ARGS block -/

/-- C10: an input with a `TOOL:` marker but no `ARGS:` (and no `ANSWER:`)
parses, in both agent.py and agent_fixed.py, as a tool call whose name is the
stripped first line after the marker (agent.py additionally truncates a
trailing parameter list) and whose arguments are the empty mapping — not a
`Malformed`/error result.  Both parsers substitute the literal `"\x7b\x7d"` for
the missing block, which `json.loads` reads as the empty dict. -/
theorem tool_without_args (s : String)
    (ht : containsStr s "TOOL:" = true)
    (hnoargs : containsStr s "ARGS:" = false)
    (hnoans : containsStr s "ANSWER:" = false) :
    parse_response s = .tool (extractToolName (pyStrip s)) (.obj []) ∧
    fixed_parse_response s =
      .tool (pyStrip (firstLine (afterFirst (pyStrip s) "TOOL:"))) (.obj []) := by
  have hsargs : containsStr (pyStrip s) "ARGS:" = false :=
    not_containsStr_pyStrip s "ARGS:" hnoargs
  have hsans : containsStr (pyStrip s) "ANSWER:" = false :=
    not_containsStr_pyStrip s "ANSWER:" hnoans
  have hstool : containsStr (pyStrip s) "TOOL:" = true :=
    containsStr_pyStrip s "TOOL:" (by decide) (by decide) ht
  constructor
  · rw [parse_response_tool s ht]
    unfold extractArgs
    rw [if_neg (by simp [hsargs])]
    rfl
  · unfold fixed_parse_response
    rw [if_neg (by simp [hsans]), if_pos hstool]
    unfold fixedExtractArgs
    rw [if_neg (by simp [hsargs])]
    rfl

/-- C10 witness. -/
theorem tool_without_args_witness :
    containsStr "TOOL: list_files" "TOOL:" = true ∧
    containsStr "TOOL: list_files" "ARGS:" = false ∧
    containsStr "TOOL: list_files" "ANSWER:" = false ∧
    parse_response "TOOL: list_files" = .tool "list_files" (.obj []) ∧
    fixed_parse_response "TOOL: list_files" = .tool "list_files" (.obj []) := by
  have h := tool_without_args "TOOL: list_files" rfl rfl rfl
  exact ⟨rfl, rfl, rfl, by rw [h.1]; rfl, by rw [h.2]; rfl⟩

/-! ### Claim C4: result order is index-aligned -/

/-- C4: for every subtask list and every completion order of the dispatched
agents, the orchestrator's results are index-aligned with the subtasks — the
result at index `i` is the one produced for `subtasks[i]`, so completion
order never leaks into the returned ordering. -/
theorem results_index_aligned (subtasks : List String) (order : List Nat)
    (f : Nat → String → RunResult)
    (h : order.Perm (List.range subtasks.length)) :
    MultiAgentOrchestrator.execute_parallel order (fun i t => Except.ok (f i t)) subtasks =
      (List.range subtasks.length).map (fun i => f i (subtasks.getD i "")) := by
  rw [execute_parallel_eq _ _ _ h]
  rfl

/-- C4 witness: four subtasks, gathered in the completion order 3,1,0,2, yet
returned in index order. -/
theorem results_index_aligned_witness :
    List.Perm [3, 1, 0, 2] (List.range (["s0", "s1", "s2", "s3"] : List String).length) ∧
    MultiAgentOrchestrator.execute_parallel [3, 1, 0, 2]
        (fun i t => Except.ok { status := "complete", answer := some t, iterations := i })
        ["s0", "s1", "s2", "s3"] =
      (List.range 4).map (fun i =>
        { status := "complete", answer := some ((["s0", "s1", "s2", "s3"] : List String).getD i ""),
          iterations := i }) :=
  ⟨by decide,
   results_index_aligned ["s0", "s1", "s2", "s3"] [3, 1, 0, 2]
     (fun i t => { status := "complete", answer := some t, iterations := i }) (by decide)⟩

/-! ### Claim C5: worker isolation -/

/-- C5: if the agent execution for subtask `j` raises, the orchestrator still
returns one result per subtask; slot `j` carries the error dict (status
`error`, text `Agent error: <e>`, zero iterations) and every sibling slot is
its own agent's outcome, unaffected. -/
theorem worker_isolation (subtasks : List String) (order : List Nat)
    (runAgent : Nat → String → Except String RunResult) (j : Nat) (e : String)
    (horder : order.Perm (List.range subtasks.length))
    (hj : j < subtasks.length)
    (herr : runAgent j (subtasks.getD j "") = .error e) :
    (MultiAgentOrchestrator.execute_parallel order runAgent subtasks).length =
      subtasks.length ∧
    (MultiAgentOrchestrator.execute_parallel order runAgent subtasks)[j]? =
      some { status := "error", answer := some ("Agent error: " ++ e), iterations := 0 } ∧
    ∀ i, i < subtasks.length → i ≠ j →
      (MultiAgentOrchestrator.execute_parallel order runAgent subtasks)[i]? =
        some (gatherOne runAgent subtasks i) := by
  rw [execute_parallel_eq _ _ _ horder]
  refine ⟨by simp, ?_, ?_⟩
  · have hslot : ((List.range subtasks.length).map (gatherOne runAgent subtasks))[j]? =
        some (gatherOne runAgent subtasks j) := by
      rw [List.getElem?_map, List.getElem?_range hj]
      rfl
    rw [hslot]
    unfold gatherOne
    rw [herr]
  · intro i hi _
    rw [List.getElem?_map, List.getElem?_range hi]
    rfl

/-- C5 witness: two subtasks, the first one failing; the failing slot is the
error dict, the sibling is untouched. -/
theorem worker_isolation_witness :
    (MultiAgentOrchestrator.execute_parallel [1, 0]
      (fun i t => if i = 0 then Except.error "boom"
        else Except.ok { status := "complete", answer := some t, iterations := 1 })
      ["a", "b"]).length = 2 ∧
    (MultiAgentOrchestrator.execute_parallel [1, 0]
      (fun i t => if i = 0 then Except.error "boom"
        else Except.ok { status := "complete", answer := some t, iterations := 1 })
      ["a", "b"])[0]? =
      some { status := "error", answer := some ("Agent error: " ++ "boom"),
             iterations := 0 } ∧
    (MultiAgentOrchestrator.execute_parallel [1, 0]
      (fun i t => if i = 0 then Except.error "boom"
        else Except.ok { status := "complete", answer := some t, iterations := 1 })
      ["a", "b"])[1]? =
      some { status := "complete", answer := some "b", iterations := 1 } := by
  have h := worker_isolation ["a", "b"] [1, 0]
    (fun i t => if i = 0 then Except.error "boom"
      else Except.ok { status := "complete", answer := some t, iterations := 1 })
    0 "boom" (by decide) (by decide) rfl
  refine ⟨h.1, h.2.1, ?_⟩
  rw [h.2.2 1 (by decide) (by decide)]
  rfl

/-! ### Claim C9: per-run state -/

/-- C9 (amended): `run` creates its conversation state afresh each call, but
the Agent's `history` field is NOT per-run: each run appends its iteration
records to the instance's history and every other field is untouched, so
records persist from one `run` invocation to the next. -/
theorem run_appends_history (llm : List Message → String)
    (tools : String → JsonValue → String) (st : AgentState) (task : String) :
    ∃ newRecords, (AgentWorker.run llm tools st task).1 =
      { st with history := st.history ++ newRecords } := by
  suffices h : ∀ rem i msgs hist, ∃ h2,
      (runAux llm tools st.agent_id task st.max_iterations i rem msgs hist).1 =
        hist ++ h2 by
    obtain ⟨h2, hh⟩ := h st.max_iterations 0 (initMessages task) st.history
    refine ⟨h2, ?_⟩
    show { st with history := (runAux llm tools st.agent_id task st.max_iterations 0
      st.max_iterations (initMessages task) st.history).1 } =
      { st with history := st.history ++ h2 }
    rw [hh]
  intro rem
  induction rem with
  | zero => exact fun i msgs hist => ⟨[], by simp [runAux]⟩
  | succ rem ih =>
    intro i msgs hist
    have key : ∀ (M : List Message) (rec : IterRecord), ∃ h2,
        (runAux llm tools st.agent_id task st.max_iterations (i + 1) rem
          M (hist ++ [rec])).1 = hist ++ h2 := by
      intro M rec
      obtain ⟨h2, hh⟩ := ih (i + 1) M (hist ++ [rec])
      exact ⟨rec :: h2, by rw [hh]; simp⟩
    simp only [runAux]
    split
    · exact ⟨_, rfl⟩
    · exact key _ _
    · exact key _ _

/-- C9 counterexample: with a budget of 1 and a pure-thought model, the state
returned by the first `run` still holds that run's record, and a second `run`
on that state returns a `partial_history` of TWO records — one of them from
the first run — whereas the same run on a fresh agent returns one record.  So
the `history` field carries records across runs and the second run's returned
trace depends on the first run. -/
theorem run_appends_history_cex :
    (AgentWorker.run (fun _ => "pondering") (fun _ _ => "ok")
      ⟨"a", "m", [], 1⟩ "greet").1.history =
      [⟨1, "pondering", .thought "pondering"⟩] ∧
    (AgentWorker.run (fun _ => "pondering") (fun _ _ => "ok")
      ⟨"a", "m", [], 1⟩ "greet").2.partial_history =
      some [⟨1, "pondering", .thought "pondering"⟩] ∧
    (AgentWorker.run (fun _ => "pondering") (fun _ _ => "ok")
      ⟨"a", "m", [⟨1, "pondering", .thought "pondering"⟩], 1⟩ "greet").2.partial_history =
      some [⟨1, "pondering", .thought "pondering"⟩, ⟨1, "pondering", .thought "pondering"⟩] :=
  ⟨rfl, rfl, rfl⟩
